import Mathlib

/-!
Verification of the core of the cxx-rust-cssparser stylesheet engine.

The Rust sources under src/rust/src are shallowly embedded here:
pure functions become Lean functions, the process-wide registries become
explicit state that is threaded through the operations, `f32` quantities
(which are only stored and compared, never computed with, on the paths in
scope) are modelled as rationals, `u8` colour channels as naturals
(constructors only store them), and fallible code returns `Except` or an
explicit result inductive.  Rust panics (`unwrap`, `panic!`) are modelled
as a dedicated constructor so that they remain observable.
-/

namespace CssRust

/-! ## Value model, from src/rust/src/value.rs -/

/- Colours and colour operations, from `enum ColorOperation`, `enum ColorData`
and `struct Color` in value.rs.  `ColorData::Mix` holds a lazy mix node and
`ColorData::Modified` wraps a colour with an operation; the two are distinct
variants.  `f32` amounts are modelled as `Rat` (they are only stored). -/
mutual

inductive ColorOperation : Type where
  | set : Option Nat → Option Nat → Option Nat → Option Nat → ColorOperation
  | add : Color → ColorOperation
  | subtract : Color → ColorOperation
  | multiply : Color → ColorOperation
  | mix : Color → Rat → ColorOperation

inductive ColorData : Type where
  | empty : ColorData
  | rgba : Nat → Nat → Nat → Nat → ColorData
  | custom : String → List String → ColorData
  | mixData : Color → Color → Rat → ColorData
  | modifiedData : Color → ColorOperation → ColorData

inductive Color : Type where
  | mk : ColorData → Color

end

/-- Projection corresponding to the `data` field of `struct Color`. -/
def Color.data : Color → ColorData
  | .mk d => d

/-- Constructor `Color::empty`. -/
def Color.empty : Color := .mk .empty

/-- Constructor `Color::rgba`. -/
def Color.rgba (r g b a : Nat) : Color := .mk (.rgba r g b a)

/-- Constructor `Color::custom`. -/
def Color.custom (source : String) (arguments : List String) : Color :=
  .mk (.custom source arguments)

/-- Constructor `Color::mix(first, second, amount)`: it builds the lazy
`ColorData::Mix` node around clones of its arguments (value.rs lines 64-72). -/
def Color.mix (first second : Color) (amount : Rat) : Color :=
  .mk (.mixData first second amount)

/-- Constructor `Color::modified(first, operation)`. -/
def Color.modified (first : Color) (operation : ColorOperation) : Color :=
  .mk (.modifiedData first operation)

/-- True exactly on the `Rgba` variant. -/
def Color.isRgba : Color → Bool
  | .mk (.rgba _ _ _ _) => true
  | _ => false

/-- True exactly on the lazy `Mix` variant. -/
def Color.isMixNode : Color → Bool
  | .mk (.mixData _ _ _) => true
  | _ => false

/-- True exactly on the `Modified` variant. -/
def Color.isModified : Color → Bool
  | .mk (.modifiedData _ _) => true
  | _ => false

/-- Units, from `enum Unit` in value.rs (named `CssUnit` here because `Unit`
is taken by the Lean prelude). -/
inductive CssUnit : Type where
  | unknown
  | unsupported
  | number
  | px
  | em
  | rem
  | pt
  | percent
  | degrees
  | radians
  | seconds
  | milliseconds
deriving DecidableEq

/-- Dimensions, from `struct Dimension`; the `f32` value is modelled as `Rat`. -/
structure Dimension : Type where
  value : Rat
  unit : CssUnit

/-- Predicate `Dimension::is_number`. -/
def Dimension.is_number (d : Dimension) : Bool := d.unit = CssUnit.number

/-- Predicate `Dimension::is_length`. -/
def Dimension.is_length (d : Dimension) : Bool :=
  match d.unit with
  | .px | .em | .rem | .pt => true
  | _ => false

/-- Predicate `Dimension::is_percent`. -/
def Dimension.is_percent (d : Dimension) : Bool := d.unit = CssUnit.percent

/-- Predicate `Dimension::is_angle`. -/
def Dimension.is_angle (d : Dimension) : Bool :=
  match d.unit with
  | .degrees | .radians => true
  | _ => false

/-- Value payloads, from `enum ValueData` in value.rs. -/
inductive ValueData : Type where
  | empty : ValueData
  | dimension : Dimension → ValueData
  | string : String → ValueData
  | color : Color → ValueData
  | image : String → ValueData
  | url : String → ValueData
  | integer : Int → ValueData

/-- Values, from `struct Value`. -/
structure Value : Type where
  data : ValueData

/-- Constructor `Value::empty`. -/
def Value.empty : Value := ⟨.empty⟩

/-- Conversion `impl From<Color> for Value`. -/
def Value.ofColor (c : Color) : Value := ⟨.color c⟩

/-- Conversion `impl From<f32> for Value`: a number dimension. -/
def Value.ofNumber (v : Rat) : Value := ⟨.dimension ⟨v, .number⟩⟩

/-- Conversion `impl From<&str> for Value`. -/
def Value.ofString (s : String) : Value := ⟨.string s⟩

/-- Conversion `impl From<Value> for Color`: the colour payload, or
`Color::empty` for any other payload. -/
def colorFromValue (v : Value) : Color :=
  match v.data with
  | .color c => c
  | _ => Color.empty

/-- Conversion `impl From<Value> for Dimension`: the dimension payload, or a
zero `Unknown` dimension for any other payload. -/
def dimensionFromValue (v : Value) : Dimension :=
  match v.data with
  | .dimension d => d
  | _ => ⟨0, .unknown⟩

/-! ## Function registry, from src/rust/src/details/property/function.rs -/

/-- Tags naming the function pointers stored in the registry.  The registry
maps names to `PropertyFunction` pointers; only the identity of the stored
function matters to the registry itself, so the pointers are modelled as
tags. -/
inductive PropertyFunctionTag : Type where
  | varFn
  | mixFn
  | customColorFn
deriving DecidableEq

/-- Initial contents of the `property_functions` map (function.rs lines
18-27): exactly the entries inserted by the `OnceLock` initialiser, in
source order.  The `HashMap` is modelled as an association list; lookup is
by key equality, so insertion order is immaterial. -/
def propertyFunctionsInitial : List (String × PropertyFunctionTag) :=
  [("var", .varFn), ("mix", .mixFn), ("custom-color", .customColorFn)]

/-- Lookup in a registry snapshot, from `property_function` (function.rs
lines 29-37). -/
def propertyFunctionIn (functions : List (String × PropertyFunctionTag))
    (name : String) : Option PropertyFunctionTag :=
  (functions.find? (fun e => e.1 == name)).map (fun e => e.2)

/-- Lookup `property_function(name)` against the built-in registry, i.e.
with no prior user registration through `add_property_function`. -/
def property_function (name : String) : Option PropertyFunctionTag :=
  propertyFunctionIn propertyFunctionsInitial name

/-- Registration `add_property_function`: idempotent, first writer wins. -/
def add_property_function (functions : List (String × PropertyFunctionTag))
    (name : String) (tag : PropertyFunctionTag) :
    List (String × PropertyFunctionTag) × Bool :=
  if (functions.find? (fun e => e.1 == name)).isSome then
    (functions, false)
  else
    (functions ++ [(name, tag)], true)

/-- Body of the built-in `mix` registry function (function.rs lines 79-89),
given the value list produced by `parse_arguments("<color>, <color>, <number>")`.
The Rust code indexes `values[0]`, `values[1]`, `values[2]`, which the
argument syntax guarantees to exist; `getD` models the in-bounds indexing. -/
def mixFunction (values : List Value) : List Value :=
  let first_color := colorFromValue (values.getD 0 Value.empty)
  let second_color := colorFromValue (values.getD 1 Value.empty)
  let amount := dimensionFromValue (values.getD 2 Value.empty)
  [Value.ofColor (Color.mix first_color second_color amount.value)]

/-! ## Error model, from src/rust/src/details/mod.rs -/

/-- Error kinds, from `enum ParseErrorKind`. -/
inductive ParseErrorKindT : Type where
  | unspecified
  | unimplemented
  | unexpectedEndOfInput
  | unknown
  | unknownProperty
  | unexpectedToken
  | invalidSelectors
  | invalidPropertySyntax
  | invalidPropertyValue
  | unknownFunction
  | invalidPropertyDefinition
  | propertyValueDoesNotMatchSyntax
  | unsupportedAtRule
  | invalidAtRule
  | invalidQualifiedRule
  | fileError
  | styleSheetParseError
deriving DecidableEq

/-- Source locations, from `struct SourceLocation`. -/
structure SourceLocation : Type where
  file : String
  line : Nat
  column : Nat
deriving DecidableEq

/-- Errors, from `struct ParseError`. -/
structure ParseError : Type where
  kind : ParseErrorKindT
  message : String
  location : SourceLocation
deriving DecidableEq

/-! ## Property-syntax AST, from src/rust/src/details/property/syntax.rs -/

/-- Data types, from `enum DataType`. -/
inductive DataType : Type where
  | length
  | number
  | percentage
  | lengthPercentage
  | string
  | color
  | url
  | integer
  | angle
  | time
  | resolution
  | transformFunction
  | customIdent
deriving DecidableEq

/-- Syntax components, from `enum SyntaxComponent`.  The Rust variant
`Repeat{data_type, minimum, maximum}` is called `repeated` here; the `usize`
bounds are naturals. -/
inductive SyntaxComponent : Type where
  | dataType : DataType → SyntaxComponent
  | keyword : String → SyntaxComponent
  | spaceSeparatedList : DataType → SyntaxComponent
  | commaSeparatedList : DataType → SyntaxComponent
  | repeated : DataType → Nat → Nat → SyntaxComponent
  | comma : SyntaxComponent
deriving DecidableEq

/- Groups and alternatives, from `enum SyntaxGroup` and
`enum SyntaxAlternatives`. -/
mutual

inductive SyntaxGroup : Type where
  | component : SyntaxComponent → SyntaxGroup
  | expression : List SyntaxAlternatives → SyntaxGroup

inductive SyntaxAlternatives : Type where
  | component : SyntaxComponent → SyntaxAlternatives
  | group : SyntaxGroup → SyntaxAlternatives
  | alternatives : List SyntaxGroup → SyntaxAlternatives

end

/-- Parsed syntaxes, from `enum ParsedPropertySyntax`. -/
inductive ParsedPropertySyntax : Type where
  | empty
  | universal
  | expression : List SyntaxAlternatives → ParsedPropertySyntax

/-! ## Property-definition registry, from src/rust/src/property.rs -/

/-- Property definitions, from `struct PropertyDefinition`. -/
structure PropertyDefinition : Type where
  name : String
  syntaxOf : ParsedPropertySyntax
  inherit : Bool
  initial : List Value

/-- The process-wide `property_definitions` vector is modelled as an explicit
`List PropertyDefinition` snapshot that the operations thread through
(`Arc` sharing is identity on immutable values). -/
def property_definition (definitions : List PropertyDefinition)
    (name : String) : Option PropertyDefinition :=
  definitions.find? (fun definition => definition.name == name)

/-- Registration `add_property_definition` (property.rs lines 36-47): if the
name is already present the registry is left unchanged and `false` is
returned, otherwise the definition is pushed and `true` is returned.  The
returned pair is (new registry contents, returned Bool).  Lock poisoning
cannot occur in this single-threaded model. -/
def add_property_definition (definitions : List PropertyDefinition)
    (definition : PropertyDefinition) : List PropertyDefinition × Bool :=
  if (definitions.find? (fun def0 => def0.name == definition.name)).isSome then
    (definitions, false)
  else
    (definitions ++ [definition], true)

/-! ## Value-list validation, from src/rust/src/details/property/syntax.rs
(lines 350 onward: validate_datatype, validate_keyword, validate_list,
validate_component, validate_group, validate_alternatives,
validate_expression). -/

/-- The per-value test performed by `validate_datatype` on the first value:
whether one value matches a data type.  The unhandled data types (`Time`,
`Resolution`, `TransformFunction`, `CustomIdent`) fall into the catch-all
error arm of the Rust match, i.e. they never match. -/
def datatypeMatches (datatype : DataType) (value : Value) : Bool :=
  match datatype with
  | .length =>
    match value.data with
    | .dimension dimension => dimension.is_length
    | _ => false
  | .number =>
    match value.data with
    | .dimension dimension => dimension.is_number
    | _ => false
  | .percentage =>
    match value.data with
    | .dimension dimension => dimension.is_percent
    | _ => false
  | .lengthPercentage =>
    match value.data with
    | .dimension dimension => dimension.is_length || dimension.is_percent
    | _ => false
  | .string =>
    match value.data with
    | .string _ => true
    | _ => false
  | .color =>
    match value.data with
    | .color _ => true
    | _ => false
  | .angle =>
    match value.data with
    | .dimension dimension => dimension.is_angle
    | _ => false
  | .integer =>
    match value.data with
    | .integer _ => true
    | _ => false
  | .url =>
    match value.data with
    | .url _ => true
    | _ => false
  | _ => false

/-- Function `validate_datatype`: consume one matching value, or error. -/
def validate_datatype (datatype : DataType) (values : List Value) :
    Except String (List Value) :=
  match values with
  | [] => .error "Expected a datatype"
  | value :: remain =>
    if datatypeMatches datatype value then .ok remain
    else .error "Data type mismatch"

/-- Function `validate_keyword`: consume one string value equal to the
keyword, or error. -/
def validate_keyword (keyword : String) (values : List Value) :
    Except String (List Value) :=
  match values with
  | [] => .error "Expected a keyword"
  | value :: remain =>
    match value.data with
    | .string data => if data == keyword then .ok remain else .error "Unexpected keyword"
    | _ => .error "Value is not a keyword"

/-- The `usize::max_value()` bound passed for unbounded lists. -/
def usizeMax : Nat := 2 ^ 64 - 1

/-- The while-loop of `validate_list`: consume values while they match,
counting, breaking when the count reaches `maximum`; a non-matching value
is returned as an error (`return result`), not a graceful stop.  Returns
the final count together with the remaining values. -/
def validateListGo (datatype : DataType) (maximum : Nat) :
    List Value → Nat → Except String (Nat × List Value)
  | [], count => .ok (count, [])
  | value :: rest, count =>
    if datatypeMatches datatype value then
      if count + 1 == maximum then .ok (count + 1, rest)
      else validateListGo datatype maximum rest (count + 1)
    else .error "Data type mismatch"

/-- Function `validate_list`: run the loop, then check the count bounds. -/
def validate_list (datatype : DataType) (values : List Value)
    (minimum maximum : Nat) : Except String (List Value) :=
  match validateListGo datatype maximum values 0 with
  | .error e => .error e
  | .ok (count, remain) =>
    if count < minimum then .error "Expected at least minimum values"
    else if count > maximum then .error "Expected at most maximum values"
    else .ok remain

/-- List flavours, from `enum ListType`. -/
inductive ListType : Type where
  | notAList
  | spaceSeparated
  | commaSeparated
deriving DecidableEq

/-- Function `validate_component` (syntax.rs lines 472-497). -/
def validate_component (component : SyntaxComponent) (values : List Value)
    (list_type : ListType) : Except String (List Value) :=
  match component with
  | .dataType datatype => validate_datatype datatype values
  | .keyword keyword => validate_keyword keyword values
  | .comma => .ok values
  | .spaceSeparatedList datatype =>
    if list_type == ListType.commaSeparated then
      .error "Expected space separated list, got comma separated"
    else validate_list datatype values 0 usizeMax
  | .commaSeparatedList datatype =>
    if list_type == ListType.spaceSeparated then
      .error "Expected comma separated list, got space separated"
    else validate_list datatype values 0 usizeMax
  | .repeated datatype minimum maximum =>
    if list_type == ListType.commaSeparated then
      .error "Expected space separated list, got comma separated"
    else validate_list datatype values minimum maximum

mutual

/-- Function `validate_group`. -/
def validate_group (group : SyntaxGroup) (values : List Value)
    (list_type : ListType) : Except String (List Value) :=
  match group with
  | .component component => validate_component component values list_type
  | .expression expr => validate_expression expr values list_type

/-- Function `validate_alternatives`: the `Alternatives` arm tries each group
on the same input and takes the first success. -/
def validate_alternatives (alternatives : SyntaxAlternatives)
    (values : List Value) (list_type : ListType) : Except String (List Value) :=
  match alternatives with
  | .component component => validate_component component values list_type
  | .group group => validate_group group values list_type
  | .alternatives groups => validateAltGroups groups values list_type

/-- The for-loop inside the `Alternatives` arm of `validate_alternatives`. -/
def validateAltGroups (groups : List SyntaxGroup) (values : List Value)
    (list_type : ListType) : Except String (List Value) :=
  match groups with
  | [] => .error "None of the alternatives matched"
  | group :: rest =>
    match validate_group group values list_type with
    | .ok remain => .ok remain
    | .error _ => validateAltGroups rest values list_type

/-- Function `validate_expression`: walk the alternatives left to right while
values remain; if the expression is exhausted return the remaining values,
and if components remain when values run out report an error. -/
def validate_expression (expr : List SyntaxAlternatives) (values : List Value)
    (list_type : ListType) : Except String (List Value) :=
  match expr, values with
  | [], remaining => .ok remaining
  | _ :: _, [] => .error "Expected additional values"
  | alternative :: restExpr, value :: restValues =>
    match validate_alternatives alternative (value :: restValues) list_type with
    | .ok remain => validate_expression restExpr remain list_type
    | .error e => .error e

end

/-- Parsed value lists with their flavour, from `enum ParseValuesResult` in
details/property/value.rs. -/
inductive ParseValuesResult : Type where
  | single : List Value → ParseValuesResult
  | spaceSeparated : List Value → ParseValuesResult
  | commaSeparated : List Value → ParseValuesResult

/-- Function `validate_syntax` (syntax.rs lines 583 onward): `Empty` and
`Universal` accept unconditionally; an expression must consume every value. -/
def validateSyntax (stx : ParsedPropertySyntax)
    (values_result : ParseValuesResult) (location : SourceLocation) :
    Except ParseError Unit :=
  match stx with
  | .empty => .ok ()
  | .universal => .ok ()
  | .expression expr =>
    let p : List Value × ListType :=
      match values_result with
      | .single v => (v, ListType.notAList)
      | .spaceSeparated v => (v, ListType.spaceSeparated)
      | .commaSeparated v => (v, ListType.commaSeparated)
    match validate_expression expr p.1 p.2 with
    | .ok [] => .ok ()
    | .ok (_ :: _) =>
      .error ⟨.propertyValueDoesNotMatchSyntax, "Received too many values", location⟩
    | .error e => .error ⟨.propertyValueDoesNotMatchSyntax, e, location⟩

/-! ## Syntax-descriptor parsing, from src/rust/src/details/property/syntax.rs
(the nom parser: keyword, data_type_name, data_type, space_separated_list,
comma_separated_list, repeat, comma, component, group, alternatives,
expression, universal, parse_syntax).

Inputs are `List Char`.  `PResult` mirrors the nom result: `ok` carries the
remaining input and the produced value, `errS` is a backtrackable
`nom::Err::Error`, `failS` is a hard `nom::Err::Failure`, and `panicked`
models a Rust panic, which no combinator may swallow.  The recursive
descent through `group`, `alternatives` and `expression` is fuelled; every
loop iteration and nesting level consumes at least one input character, so
the fuel chosen by `parseSyntaxString` is never exhausted for real inputs. -/

inductive PResult (α : Type) : Type where
  | ok : List Char → α → PResult α
  | errS : String → PResult α
  | failS : String → PResult α
  | panicked : String → PResult α

/-- True exactly on the hard-failure constructor. -/
def PResult.isFailure {α : Type} : PResult α → Bool
  | .failS _ => true
  | _ => false

/-- True exactly on the panic constructor. -/
def PResult.isPanic {α : Type} : PResult α → Bool
  | .panicked _ => true
  | _ => false

/-- Sequencing that propagates errors, failures and panics, as the `?`
operator does on nom results. -/
def PResult.andThen {α β : Type} (r : PResult α)
    (f : List Char → α → PResult β) : PResult β :=
  match r with
  | .ok remain v => f remain v
  | .errS e => .errS e
  | .failS e => .failS e
  | .panicked e => .panicked e

/-- The left and right braces, written numerically. -/
def lbrace : Char := Char.ofNat 123

/-- The right brace. -/
def rbrace : Char := Char.ofNat 125

/-- Combinator `nom::character::complete::space0`: spaces and tabs. -/
def skipSpace0 (input : List Char) : List Char :=
  input.dropWhile (fun c => c == ' ' || c == '\t')

/-- Combinator `nom::character::complete::char(c)`. -/
def charP (c : Char) (input : List Char) : PResult Char :=
  match input with
  | [] => .errS "char: end of input"
  | x :: rest => if x == c then .ok rest x else .errS "char: mismatch"

/-- Combinator `nom::bytes::complete::tag(pat)`. -/
def tagP (pat : List Char) (input : List Char) : PResult (List Char) :=
  if pat.isPrefixOf input then .ok (input.drop pat.length) pat
  else .errS "Input did not match a tag"

/-- Combinator `nom::character::complete::digit1`: one or more ASCII digits. -/
def digit1 (input : List Char) : PResult (List Char) :=
  let digits := input.takeWhile (fun c => c.isDigit)
  if digits.isEmpty then .errS "digit1: no digits"
  else .ok (input.drop digits.length) digits

/-- Predicate `custom_ident_start`, with the extended unicode ranges copied
from the Rust `matches!`. -/
def customIdentStart (c : Char) : Bool :=
  (c ≥ 'a' && c ≤ 'z') || (c ≥ 'A' && c ≤ 'Z') || c == '_' ||
  c.toNat == 0xB7 ||
  (c.toNat ≥ 0xCD && c.toNat ≤ 0xD7) ||
  (c.toNat ≥ 0xD8 && c.toNat ≤ 0xF6) ||
  (c.toNat ≥ 0xF8 && c.toNat ≤ 0x37D) ||
  (c.toNat ≥ 0x37F && c.toNat ≤ 0x1FFF) ||
  c.toNat == 0x200C || c.toNat == 0x200D || c.toNat == 0x203F || c.toNat == 0x2040 ||
  (c.toNat ≥ 0x2070 && c.toNat ≤ 0x218F) ||
  (c.toNat ≥ 0x2C00 && c.toNat ≤ 0x2FEF) ||
  (c.toNat ≥ 0x3001 && c.toNat ≤ 0xD7FF) ||
  (c.toNat ≥ 0xF900 && c.toNat ≤ 0xFDCF) ||
  (c.toNat ≥ 0xFDF0 && c.toNat ≤ 0xFFFD) ||
  c.toNat ≥ 0x10000

/-- Predicate `custom_ident`.  Rust uses `char::is_numeric` (Unicode
numerics); only ASCII digits occur in the inputs in scope, so digits model
the numeric class here. -/
def customIdent (c : Char) : Bool :=
  customIdentStart c || c.isDigit || c == '-'

/-- Parser `keyword`: a `custom_ident_start` character followed by
`custom_ident` characters. -/
def keywordP (input : List Char) : PResult SyntaxComponent :=
  match input with
  | [] => .errS "Input is not a keyword"
  | c :: rest =>
    if customIdentStart c then
      let tail := rest.takeWhile customIdent
      .ok (rest.drop tail.length) (.keyword (String.mk (c :: tail)))
    else .errS "Input is not a keyword"

/-- The recognised data-type names, in the order `data_type_name` tries its
`tag` alternatives. -/
def dataTypeNames : List String :=
  ["length-percentage", "length", "number", "percentage", "string", "color",
   "url", "integer", "angle", "time", "resolution", "transform-function",
   "custom-ident"]

/-- The `alt` chain of `data_type_name`: try each tag in order; every failed
tag is a backtrackable error. -/
def dataTypeNameGo (names : List String) (input : List Char) :
    PResult (List Char) :=
  match names with
  | [] => .errS "Input is not a valid data type name"
  | n :: rest =>
    match tagP n.toList input with
    | .ok remain v => .ok remain v
    | _ => dataTypeNameGo rest input

/-- Parser `data_type_name`. -/
def dataTypeName (input : List Char) : PResult (List Char) :=
  dataTypeNameGo dataTypeNames input

/-- The match in `data_type` mapping a recognised name to a `DataType`. -/
def dataTypeOfName (name : List Char) : Option DataType :=
  if name == "length-percentage".toList then some .lengthPercentage
  else if name == "length".toList then some .length
  else if name == "number".toList then some .number
  else if name == "percentage".toList then some .percentage
  else if name == "string".toList then some .string
  else if name == "color".toList then some .color
  else if name == "url".toList then some .url
  else if name == "integer".toList then some .integer
  else if name == "angle".toList then some .angle
  else if name == "time".toList then some .time
  else if name == "resolution".toList then some .resolution
  else if name == "transform-function".toList then some .transformFunction
  else if name == "custom-ident".toList then some .customIdent
  else none

/-- Parser `data_type` (syntax.rs lines 173-197):
`delimited(char('<'), data_type_name, char('>'))`, then the name-to-type
match whose default arm is `make_failure("Invalid data type")`; any error
of the delimited parser becomes the backtrackable
`make_error("Input is not a data type")`. -/
def dataTypeP (input : List Char) : PResult SyntaxComponent :=
  match charP '<' input with
  | .ok r1 _ =>
    match dataTypeName r1 with
    | .ok r2 name =>
      match charP '>' r2 with
      | .ok r3 _ =>
        match dataTypeOfName name with
        | some dt => .ok r3 (.dataType dt)
        | none => .failS "Invalid data type"
      | _ => .errS "Input is not a data type"
    | _ => .errS "Input is not a data type"
  | _ => .errS "Input is not a data type"

/-- Parser `space_separated_list`: `terminated(data_type, char('+'))`, the
errors propagated by `?`. -/
def spaceSeparatedListP (input : List Char) : PResult SyntaxComponent :=
  (dataTypeP input).andThen fun r1 c =>
  (charP '+' r1).andThen fun r2 _ =>
  match c with
  | .dataType dt => .ok r2 (.spaceSeparatedList dt)
  | _ => .errS "Input is not a space separated list"

/-- Parser `comma_separated_list`: `terminated(data_type, char('#'))`. -/
def commaSeparatedListP (input : List Char) : PResult SyntaxComponent :=
  (dataTypeP input).andThen fun r1 c =>
  (charP '#' r1).andThen fun r2 _ =>
  match c with
  | .dataType dt => .ok r2 (.commaSeparatedList dt)
  | _ => .errS "Input is not a comma separated list"

/-- Result of `str::parse::<usize>` on a digit string: `none` models the
`PosOverflow` error for values above `usize::MAX`. -/
def parseUsize (digits : List Char) : Option Nat :=
  let n := digits.foldl (fun acc c => acc * 10 + (c.toNat - 48)) 0
  if n ≤ usizeMax then some n else none

/-- The `pair(data_type, delimited(...braces and digits...))` inside the
`repeat` parser, with errors propagated. -/
def repeatInner (input : List Char) :
    PResult (SyntaxComponent × List Char × List Char) :=
  (dataTypeP input).andThen fun r1 c =>
  (charP lbrace r1).andThen fun r2 _ =>
  (digit1 r2).andThen fun r3 minDigits =>
  (charP ',' r3).andThen fun r4 _ =>
  (digit1 r4).andThen fun r5 maxDigits =>
  (charP rbrace r5).andThen fun r6 _ =>
  .ok r6 (c, minDigits, maxDigits)

/-- Parser `repeat` (syntax.rs lines 217-236).  On a successful pair whose
component is a data type, the Rust code runs
`minimum.parse().unwrap()` and `maximum.parse().unwrap()`: an overflowing
digit sequence makes `parse` return `Err(PosOverflow)` and the `unwrap`
panic.  All parse errors of the pair collapse to the backtrackable
`make_error("Input is not a valid repeat pattern")`. -/
def repeatP (input : List Char) : PResult SyntaxComponent :=
  match repeatInner input with
  | .ok r6 (c, minDigits, maxDigits) =>
    match c with
    | .dataType dt =>
      match parseUsize minDigits, parseUsize maxDigits with
      | some minimum, some maximum => .ok r6 (.repeated dt minimum maximum)
      | _, _ => .panicked "called unwrap on a usize parse overflow"
    | _ => .errS "Input is not a valid repeat pattern"
  | .panicked e => .panicked e
  | _ => .errS "Input is not a valid repeat pattern"

/-- Parser `comma`: a single comma character. -/
def commaP (input : List Char) : PResult SyntaxComponent :=
  (charP ',' input).andThen fun r _ => .ok r .comma

/-- Combinator `nom::branch::alt`: try in order, backtracking on `errS`,
stopping on `failS`, always propagating panics. -/
def altP {α : Type} (parsers : List (List Char → PResult α))
    (input : List Char) : PResult α :=
  match parsers with
  | [] => .errS "Input matched none of the alternatives"
  | p :: rest =>
    match p input with
    | .ok remain v => .ok remain v
    | .errS _ => altP rest input
    | .failS e => .failS e
    | .panicked e => .panicked e

/-- Parser `component`:
`delimited(space0, alt((repeat, space_separated_list, comma_separated_list,
data_type, keyword, comma)), space0)`; the source converts every non-`Ok`
result (hard failures included) into
`make_error("Input did not match any syntax component")`, but a panic
keeps unwinding. -/
def componentP (input : List Char) : PResult SyntaxComponent :=
  match altP [repeatP, spaceSeparatedListP, commaSeparatedListP, dataTypeP,
              keywordP, commaP] (skipSpace0 input) with
  | .ok remain v => .ok (skipSpace0 remain) v
  | .panicked e => .panicked e
  | _ => .errS "Input did not match any syntax component"

mutual

/-- Parser `group`: first try
`delimited(space0 '(' space0, expression, space0 ')' space0)`; if that
produces an expression, wrap it, otherwise (any error or failure) fall back
to `component`; a final miss is the backtrackable
`make_error("Input did not match a group")`. -/
def groupP : Nat → List Char → PResult SyntaxGroup
  | 0, _ => .errS "out of fuel"
  | fuel + 1, input =>
    let attempt : PResult ParsedPropertySyntax :=
      match charP '(' (skipSpace0 input) with
      | .ok r1 _ =>
        (expressionP fuel (skipSpace0 r1)).andThen fun r2 e =>
          match charP ')' (skipSpace0 r2) with
          | .ok r3 _ => .ok (skipSpace0 r3) e
          | _ => .errS "char: mismatch"
      | .errS e => .errS e
      | .failS e => .failS e
      | .panicked e => .panicked e
    match attempt with
    | .ok remain (ParsedPropertySyntax.expression e) => .ok remain (.expression e)
    | .panicked e => .panicked e
    | _ =>
      match componentP input with
      | .ok remain c => .ok remain (.component c)
      | .panicked e => .panicked e
      | _ => .errS "Input did not match a group"

/-- Parser `alternatives`: try
`pair(group, many1(preceded(char('|'), group)))`; if the pair fails, fall
back to a single `group`, unwrapping a lone component. -/
def alternativesP : Nat → List Char → PResult SyntaxAlternatives
  | 0, _ => .errS "out of fuel"
  | fuel + 1, input =>
    let paired : PResult SyntaxAlternatives :=
      match groupP fuel input with
      | .ok r1 g1 =>
        match altTailP fuel r1 with
        | .ok r2 gs => .ok r2 (.alternatives (g1 :: gs))
        | .errS e => .errS e
        | .failS e => .failS e
        | .panicked e => .panicked e
      | .errS e => .errS e
      | .failS e => .failS e
      | .panicked e => .panicked e
    match paired with
    | .ok remain v => .ok remain v
    | .panicked e => .panicked e
    | .failS _ | .errS _ =>
      match groupP fuel input with
      | .ok remain (SyntaxGroup.component c) => .ok remain (.component c)
      | .ok remain g => .ok remain (.group g)
      | .panicked e => .panicked e
      | _ => .errS "Input did not match an alternatives block"

/-- The loop `many1(preceded(char('|'), group))`: collect one or more
pipe-prefixed groups, stopping at the first backtrackable miss. -/
def altTailP : Nat → List Char → PResult (List SyntaxGroup)
  | 0, _ => .errS "out of fuel"
  | fuel + 1, input =>
    match (charP '|' input).andThen (fun r1 _ => groupP fuel r1) with
    | .ok r2 g =>
      match altTailP fuel r2 with
      | .ok r3 gs => .ok r3 (g :: gs)
      | .errS _ => .ok r2 [g]
      | .failS e => .failS e
      | .panicked e => .panicked e
    | .errS e => .errS e
    | .failS e => .failS e
    | .panicked e => .panicked e

/-- The loop `many1(alternatives)` inside `expression`. -/
def manyAlternativesP : Nat → List Char → PResult (List SyntaxAlternatives)
  | 0, _ => .errS "out of fuel"
  | fuel + 1, input =>
    match alternativesP fuel input with
    | .ok r1 a =>
      match manyAlternativesP fuel r1 with
      | .ok r2 rest => .ok r2 (a :: rest)
      | .errS _ => .ok r1 [a]
      | .failS e => .failS e
      | .panicked e => .panicked e
    | .errS e => .errS e
    | .failS e => .failS e
    | .panicked e => .panicked e

/-- Parser `expression`: `many1(alternatives)`, any miss becoming
`make_error("Input did not match an expression")`. -/
def expressionP : Nat → List Char → PResult ParsedPropertySyntax
  | 0, _ => .errS "out of fuel"
  | fuel + 1, input =>
    match manyAlternativesP fuel input with
    | .ok remain alts => .ok remain (.expression alts)
    | .panicked e => .panicked e
    | _ => .errS "Input did not match an expression"

end

/-- Parser `universal`: `delimited(space0, char('*'), space0)`. -/
def universalP (input : List Char) : PResult ParsedPropertySyntax :=
  match charP '*' (skipSpace0 input) with
  | .ok remain _ => .ok (skipSpace0 remain) .universal
  | _ => .errS "Input did not match the universal syntax"

/-- Results of `parse_syntax`: a parsed syntax, a returned `ParseError`, or
a propagated panic. -/
inductive SyntaxResult : Type where
  | parsed : ParsedPropertySyntax → SyntaxResult
  | errored : ParseError → SyntaxResult
  | panickedR : String → SyntaxResult

/-- True exactly on the `parsed` constructor. -/
def SyntaxResult.isParsed : SyntaxResult → Bool
  | .parsed _ => true
  | _ => false

/-- True exactly on the panic constructor. -/
def SyntaxResult.isPanic : SyntaxResult → Bool
  | .panickedR _ => true
  | _ => false

/-- Function `parse_syntax` (syntax.rs lines 324-341):
`alt((universal, expression))` over the whole input; on success the
remaining input is discarded (`if let Ok((_, syntax))`), and any parse
error is reported as `InvalidPropertySyntax` at the given location.  The
fuel covers one unit per consumed character for both the iteration and the
nesting of the descent, plus slack for the fuelled entry points. -/
def parseSyntaxString (input : String) (location : SourceLocation) :
    SyntaxResult :=
  let chars := input.toList
  let fuel := 2 * chars.length + 4
  match altP [universalP, expressionP fuel] chars with
  | .ok _ stx => .parsed stx
  | .panicked e => .panickedR e
  | .errS e => .errored ⟨.invalidPropertySyntax, e, location⟩
  | .failS e => .errored ⟨.invalidPropertySyntax, e, location⟩

/-! ## Selector model, from src/rust/src/selector.rs -/

/-- Attribute operators, from `enum AttributeOperator`. -/
inductive AttributeOperator : Type where
  | none
  | exists
  | equals
  | includes
  | prefixed
  | suffixed
  | substring
  | dashMatch

/-- Selector part kinds, from `enum SelectorKind`. -/
inductive SelectorKind : Type where
  | unknown
  | anyElement
  | type
  | classSelector
  | id
  | pseudoClass
  | attribute
  | relativeParent
  | documentRoot
  | descendantCombinator
  | childCombinator
deriving DecidableEq

/-- Selector part values, from `enum SelectorValue`. -/
inductive SelectorValue : Type where
  | empty
  | value : Value → SelectorValue
  | attribute : String → AttributeOperator → Value → SelectorValue

/-- Selector parts, from `struct SelectorPart`. -/
structure SelectorPart : Type where
  kind : SelectorKind
  value : SelectorValue

/-- Selectors, from `struct Selector`. -/
structure Selector : Type where
  parts : List SelectorPart

/-- Constructor `SelectorPart::new_with_empty`. -/
def SelectorPart.newWithEmpty (kind : SelectorKind) : SelectorPart :=
  ⟨kind, .empty⟩

/-- The index collection in `Selector::combine`: positions of every
`RelativeParent` part of the list, in ascending order. -/
def relativeIndices (parts : List SelectorPart) : List Nat :=
  (List.range parts.length).filter
    (fun index => (parts.getD index (SelectorPart.newWithEmpty .unknown)).kind
        == SelectorKind.relativeParent)

/-- One `parts.remove(i); parts.splice(i..i, replacement)` step: the element
at position `i` is replaced by the whole replacement sequence. -/
def spliceAt (parts : List SelectorPart) (i : Nat)
    (replacement : List SelectorPart) : List SelectorPart :=
  parts.take i ++ replacement ++ parts.drop (i + 1)

/-- The splice loop of `Selector::combine`: walk the recorded indices,
offsetting each by the growth caused by earlier splices
(`offset = offset + second.parts.len() - 1`). -/
def spliceLoop (replacement : List SelectorPart) :
    List Nat → List SelectorPart × Nat → List SelectorPart × Nat
  | [], acc => acc
  | index :: rest, (parts, offset) =>
    spliceLoop replacement rest
      (spliceAt parts (index + offset) replacement,
       offset + replacement.length - 1)

/-- Function `Selector::combine(first, second)` (selector.rs lines 72-102):
start from `first.parts`; when `second.parts` is non-empty, either append it
(no `RelativeParent` in `first`) or splice it over every `RelativeParent`
position.  In the nested-rule expansion the `first` argument is the child
selector and the `second` argument is the parent spliced into it. -/
def combine (first second : Selector) : Selector :=
  let parts := first.parts
  if second.parts.isEmpty then ⟨parts⟩
  else
    let relative_indices := relativeIndices parts
    if relative_indices.isEmpty then ⟨parts ++ second.parts⟩
    else ⟨(spliceLoop second.parts relative_indices (parts, 0)).1⟩

/-- Whether any part of a list is a `RelativeParent`. -/
def hasRelativeParent (parts : List SelectorPart) : Bool :=
  parts.any (fun part => part.kind == SelectorKind.relativeParent)

/-- The natural recursive description of the splice loop: replace each
`RelativeParent` part by the replacement sequence.  Used to characterise
`combine`; equality with the index-based loop is proved below. -/
def replaceRelative (replacement : List SelectorPart) :
    List SelectorPart → List SelectorPart
  | [] => []
  | part :: rest =>
    if part.kind == SelectorKind.relativeParent then
      replacement ++ replaceRelative replacement rest
    else
      part :: replaceRelative replacement rest

/-! ## Rules parser, from src/rust/src/details/rulesparser.rs -/

/-- Properties at use sites, from `struct Property` in property.rs (the
`Arc<PropertyDefinition>` is inlined). -/
structure Property : Type where
  name : String
  definition : PropertyDefinition
  values : List Value

/-- Parsed (possibly nested) rules, from `struct ParsedRule`. -/
inductive ParsedRule : Type where
  | mk : List Selector → List Property → List ParsedRule → ParsedRule

/-- Field `selectors`. -/
def ParsedRule.selectors : ParsedRule → List Selector
  | .mk s _ _ => s

/-- Field `properties`. -/
def ParsedRule.properties : ParsedRule → List Property
  | .mk _ p _ => p

/-- Field `nested_rules`. -/
def ParsedRule.nestedRules : ParsedRule → List ParsedRule
  | .mk _ _ n => n

/-- Parser outputs, from `enum ParseResult`. -/
inductive ParseResultT : Type where
  | property : Property → ParseResultT
  | rule : ParsedRule → ParseResultT
  | propertyDefinition : PropertyDefinition → ParseResultT
  | importRule : String → ParseResultT

/-- Errors surfaced by the cssparser iterators: either a library-level
`Basic` error or this crate's `Custom(ParseError)`. -/
inductive CssError : Type where
  | basic : String → CssError
  | custom : ParseError → CssError

/-- The body loop of `RulesParser::parse_block` for a qualified rule
(rulesparser.rs lines 60-91).  The `RuleBodyParser` iterator is modelled by
its emitted entries.  Properties and nested rules are collected; a nested
`PropertyDefinition` is registered at once (return value discarded); a
nested `@import` entry or an erroneous entry makes the whole block — and
with it the whole rule — return that error.  The result pairs the registry
after the side effects with the block outcome. -/
def parseBlockGo (prelude : List Selector) (loc : SourceLocation)
    (entries : List (Except CssError ParseResultT))
    (registry : List PropertyDefinition) (properties : List Property)
    (nested : List ParsedRule) :
    List PropertyDefinition × Except CssError ParseResultT :=
  match entries with
  | [] => (registry, .ok (.rule (.mk prelude properties nested)))
  | .ok (.property property) :: rest =>
    parseBlockGo prelude loc rest registry (properties ++ [property]) nested
  | .ok (.rule rule) :: rest =>
    parseBlockGo prelude loc rest registry properties (nested ++ [rule])
  | .ok (.propertyDefinition definition) :: rest =>
    parseBlockGo prelude loc rest (add_property_definition registry definition).1
      properties nested
  | .ok (.importRule _) :: _ =>
    (registry, .error (.custom
      ⟨.unsupportedAtRule, "@import can only be used at top level", loc⟩))
  | .error e :: _ => (registry, .error e)

/-- Entry point of the qualified-rule `parse_block`. -/
def parse_block (prelude : List Selector) (loc : SourceLocation)
    (entries : List (Except CssError ParseResultT))
    (registry : List PropertyDefinition) :
    List PropertyDefinition × Except CssError ParseResultT :=
  parseBlockGo prelude loc entries registry [] []

/-! ## Style rules and flattening, from src/rust/src/stylerule.rs -/

/-- Style rules, from `struct StyleRule`. -/
structure StyleRule : Type where
  selector : Selector
  properties : List Property

mutual

/-- Function `StyleRule::from_parsed_rule`: one rule per selector of the
prelude, each followed by the flattened nested rules combined against it;
a selector is skipped entirely when both its parts and the properties are
empty. -/
def from_parsed_rule : ParsedRule → List StyleRule
  | .mk selectors properties nested_rules =>
    perSelector selectors properties nested_rules

/-- The outer `for selector in &parsed.selectors` loop. -/
def perSelector : List Selector → List Property → List ParsedRule →
    List StyleRule
  | [], _, _ => []
  | selector :: rest, properties, nested_rules =>
    (if selector.parts.isEmpty && properties.isEmpty then []
     else ⟨selector, properties⟩ :: nestedExpansion nested_rules selector) ++
    perSelector rest properties nested_rules

/-- The inner loops over `nested_rules` and their expansions: each nested
result is re-emitted with its selector combined against the current
selector. -/
def nestedExpansion : List ParsedRule → Selector → List StyleRule
  | [], _ => []
  | nested_rule :: rest, selector =>
    (from_parsed_rule nested_rule).map
      (fun nested_result =>
        ⟨combine nested_result.selector selector, nested_result.properties⟩) ++
    nestedExpansion rest selector

end

/-! ## Stylesheet driver, from src/rust/src/stylesheet.rs -/

/-- The mutable fields of `struct StyleSheet` that the parsing paths touch
(`root_path` and file IO stay outside the model; `@import` resolution is
abstracted as a handler function below). -/
structure SheetState : Type where
  rules : List StyleRule
  errors : List ParseError

/-- Outcomes of the `parse_string` dispatch loop. -/
inductive DriverOutcome : Type where
  | panickedD : String → DriverOutcome
  | importAborted : List PropertyDefinition → SheetState → ParseError → DriverOutcome
  | finished : List PropertyDefinition → SheetState → List StyleRule →
      List ParseError → DriverOutcome

/-- Import handlers: a model of `self.parse_file(name)`, which may mutate
the registry and the stylesheet (its own recursive `parse_string` appends
rules and errors) and return a `Result`. -/
def ImportHandler : Type :=
  String → List PropertyDefinition → SheetState →
    List PropertyDefinition × SheetState × Except ParseError Unit

/-- The `for entry in style_sheet_parser` loop of `StyleSheet::parse_string`
(stylesheet.rs lines 57-85): rules are flattened into a local list,
property definitions are registered, `@import` re-enters the file parser
and aborts everything on failure (`?`), a top-level property panics, and an
erroneous entry is appended to the local error list when it is a custom
error (anything else panics). -/
def topLoop (handler : ImportHandler) :
    List (Except CssError ParseResultT) → List PropertyDefinition →
    SheetState → List StyleRule → List ParseError → DriverOutcome
  | [], registry, st, rules, errors => .finished registry st rules errors
  | .ok (.rule rule) :: rest, registry, st, rules, errors =>
    topLoop handler rest registry st (rules ++ from_parsed_rule rule) errors
  | .ok (.propertyDefinition definition) :: rest, registry, st, rules, errors =>
    topLoop handler rest (add_property_definition registry definition).1 st
      rules errors
  | .ok (.importRule name) :: rest, registry, st, rules, errors =>
    match handler name registry st with
    | (registry2, st2, .ok _) => topLoop handler rest registry2 st2 rules errors
    | (registry2, st2, .error e) => .importAborted registry2 st2 e
  | .ok (.property _) :: _, _, _, _, _ =>
    .panickedD "Received property at toplevel!"
  | .error (.custom e) :: rest, registry, st, rules, errors =>
    topLoop handler rest registry st rules (errors ++ [e])
  | .error (.basic _) :: _, _, _, _, _ =>
    .panickedD "Unexpected error type"

/-- The aggregated message built at the end of `parse_string`: a single
error passes its message through, several are concatenated under a
heading (the Rust string uses the Display form of each error; the message
field stands in for it here). -/
def aggregateMessage (errors : List ParseError) : String :=
  match errors with
  | [e] => e.message
  | _ => errors.foldl (fun acc e => acc ++ e.message ++ "\n") "Multiple errors:\n"

/-- Function `StyleSheet::parse_string` (stylesheet.rs lines 57-104) over
its emitted top-level entries: run the loop, then extend the sheet with the
local rules and errors, and succeed exactly when the *cumulative* error
list is empty, otherwise build the aggregated `StyleSheetParseError` at the
origin.  `none` models a panic; an aborted import returns its error with
the local lists discarded. -/
def parse_string_model (handler : ImportHandler)
    (registry : List PropertyDefinition) (st : SheetState)
    (entries : List (Except CssError ParseResultT)) (origin : String) :
    Option (List PropertyDefinition × SheetState × Except ParseError Unit) :=
  match topLoop handler entries registry st [] [] with
  | .panickedD _ => none
  | .importAborted registry2 st2 e => some (registry2, st2, .error e)
  | .finished registry2 st2 rules errors =>
    let st3 : SheetState := ⟨st2.rules ++ rules, st2.errors ++ errors⟩
    if st3.errors.isEmpty then some (registry2, st3, .ok ())
    else
      some (registry2, st3, .error
        ⟨.styleSheetParseError, aggregateMessage st3.errors, ⟨origin, 0, 0⟩⟩)

/-! ## Auxiliary definitions used by the statements below -/

/-- Success test on an `Except` result. -/
def exceptOk {ε α : Type} : Except ε α → Bool
  | .ok _ => true
  | .error _ => false

/-- Number of leading values of a list that match a data type; used to
characterise the `validate_list` loop. -/
def leadingMatches (datatype : DataType) : List Value → Nat
  | [] => 0
  | value :: rest =>
    if datatypeMatches datatype value then leadingMatches datatype rest + 1
    else 0

/-- Top-level entries that are neither errors, nor imports, nor stray
properties: exactly those that the `parse_string` loop consumes without
touching the error list or leaving the loop. -/
def cleanEntry : Except CssError ParseResultT → Bool
  | .ok (.rule _) => true
  | .ok (.propertyDefinition _) => true
  | _ => false

/-- An import handler that does nothing and succeeds; used to instantiate
driver statements. -/
def trivialImportHandler : ImportHandler :=
  fun _ registry st => (registry, st, .ok ())

/-- A sample registered definition. -/
def defExampleFirst : PropertyDefinition := ⟨"a", .universal, false, []⟩

/-- A later definition under the same name with a different inherit flag. -/
def defExampleSecond : PropertyDefinition := ⟨"a", .universal, true, []⟩

/-- A sheet state carrying one earlier error and no rules. -/
def exampleSheetState : SheetState :=
  ⟨[], [⟨.unknownProperty, "m", ⟨"T", 0, 0⟩⟩]⟩

/-! ## Theorems -/

/-- Claim C1: the built-in `mix` registry function, on arguments parsed as
`<color>, <color>, <number>`, is claimed to return a single
`Color::Modified{first, Mix{second, amount}}` value.  Evaluating the
embedded function body on the parsed arguments of `mix(black, white, 0.5)`
shows that it instead returns the lazy `ColorData::Mix` variant built by
`Color::mix` — not a `Modified` colour — contradicting both the claim and
the crate's own test `mix` in tests/propertyfunction.rs, which expects
`Color::modified(black, ColorOperation::mix(white, 0.5))`. -/
theorem mix_function_returns_lazy_mix_node :
    mixFunction
        [Value.ofColor (Color.rgba 0 0 0 255),
         Value.ofColor (Color.rgba 255 255 255 255),
         Value.ofNumber (1 / 2)] =
      [Value.ofColor
        (Color.mix (Color.rgba 0 0 0 255) (Color.rgba 255 255 255 255) (1 / 2))] ∧
    Color.isModified
      (Color.mix (Color.rgba 0 0 0 255) (Color.rgba 255 255 255 255) (1 / 2)) = false ∧
    Color.isMixNode
      (Color.mix (Color.rgba 0 0 0 255) (Color.rgba 255 255 255 255) (1 / 2)) = true :=
  ⟨rfl, rfl, rfl⟩

/-- Claim C2: the process-wide function registry is claimed to contain a
built-in entry named `modify-color`.  The initialiser of
`property_functions` inserts only `var`, `mix` and `custom-color`, so the
lookup of `modify-color` with no prior user registration returns `None` —
no `modify-color` function exists anywhere in the crate, although the
crate's own tests `modify_color_add` and friends unwrap this very lookup. -/
theorem modify_color_not_registered :
    property_function "modify-color" = none ∧
    property_function "var" = some .varFn ∧
    property_function "mix" = some .mixFn ∧
    property_function "custom-color" = some .customColorFn :=
  ⟨rfl, rfl, rfl, rfl⟩

/-- Claim C3, counterexample: `Color::mix(x, y, 0)` is claimed to equal `x`,
but on `x = Rgba(0,0,0,255)`, `y = Rgba(255,255,255,255)` the function
returns the lazy `Mix` node, which is a different variant from `x`. -/
theorem color_mix_at_zero_not_first :
    Color.mix (Color.rgba 0 0 0 255) (Color.rgba 255 255 255 255) 0 ≠
      Color.rgba 0 0 0 255 := by
  intro h
  exact absurd (congrArg Color.isRgba h) (by decide)

/-- Claim C3, amended: `Color::mix(a, b, t)` performs no interpolation,
clamping or rounding at this layer; it is the lazy constructor that stores
exactly `a`, `b` and the unclamped `t` in a `ColorData::Mix` node, and its
result is never an `Rgba` colour. -/
theorem color_mix_is_lazy_constructor (x y : Color) (t : Rat)
    (r g b a : Nat) :
    (Color.mix x y t).data = ColorData.mixData x y t ∧
    Color.isRgba (Color.mix x y t) = false ∧
    Color.mix x y t ≠ Color.rgba r g b a := by
  refine ⟨rfl, rfl, ?_⟩
  intro h
  exact Bool.noConfusion (congrArg Color.isRgba h)

/-- Claim C5: a repeat term whose digit sequence overflows `usize` is
claimed to make `parse_syntax` return `InvalidPropertySyntax`.  Instead the
code calls `.parse().unwrap()` on the digits, and the embedded parser shows
the overflow input panicking, while an in-range repeat such as
`<length>{1,4}` parses normally. -/
theorem repeat_overflow_panics :
    SyntaxResult.isPanic
      (parseSyntaxString "<number>\x7b99999999999999999999999999,2\x7d"
        ⟨"T", 0, 0⟩) = true ∧
    parseSyntaxString "<length>\x7b1,4\x7d" ⟨"T", 0, 0⟩ =
      .parsed (.expression [.component (.repeated .length 1 4)]) :=
  ⟨rfl, rfl⟩

/-- Claim C6, counterexample: a descriptor containing the unrecognized
data-type term `<foo>` is claimed to always fail with
`InvalidPropertySyntax`, yet `parse_syntax` accepts `auto <foo>`: the
leading keyword parses, `many1` stops, and the unparsed remainder
`<foo>` is silently discarded by the `if let Ok((_, syntax))` pattern. -/
theorem unrecognized_datatype_accepted_after_keyword :
    parseSyntaxString "auto <foo>" ⟨"T", 0, 0⟩ =
      .parsed (.expression [.component (.keyword "auto")]) :=
  rfl

/-- Claim C7, counterexample: with a rule body consisting of a valid
declaration, a failing declaration and another valid declaration, the
claim says the rule is still produced with the two valid declarations;
instead `parse_block` returns the declaration's error and no rule at all. -/
theorem declaration_error_drops_whole_rule :
    parse_block [⟨[SelectorPart.newWithEmpty .type]⟩] ⟨"T", 0, 0⟩
      [.ok (.property ⟨"test", ⟨"test", .universal, false, []⟩,
          [Value.ofString "red"]⟩),
       .error (.custom ⟨.propertyValueDoesNotMatchSyntax, "mismatch",
          ⟨"T", 1, 1⟩⟩),
       .ok (.property ⟨"other", ⟨"other", .universal, false, []⟩,
          [Value.ofString "blue"]⟩)]
      [] =
    ([], .error (.custom ⟨.propertyValueDoesNotMatchSyntax, "mismatch",
        ⟨"T", 1, 1⟩⟩)) :=
  rfl

/-- Claim C9, counterexample: combining a child that still contains a
`RelativeParent` marker with an *empty* parent selector returns the child
unchanged, so the combined selector keeps its `RelativeParent` part even
though the parent contained none. -/
theorem combine_with_empty_parent_keeps_marker :
    hasRelativeParent
      (combine ⟨[SelectorPart.newWithEmpty .relativeParent]⟩ ⟨[]⟩).parts = true :=
  rfl

/-- Claim C8: property-definition registration is first-writer-wins: once a
definition is registered under a name, a later `add_property_definition`
with any definition of the same name returns `false`, leaves the registry
unchanged, and a subsequent lookup still returns the first definition. -/
theorem add_property_definition_first_writer_wins
    (definitions : List PropertyDefinition) (d1 d2 : PropertyDefinition)
    (h1 : property_definition definitions d1.name = some d1)
    (h2 : d2.name = d1.name) :
    add_property_definition definitions d2 = (definitions, false) ∧
    property_definition (add_property_definition definitions d2).1 d1.name =
      some d1 := by
  have hfind :
      (definitions.find? (fun def0 => def0.name == d2.name)).isSome = true := by
    rw [h2]
    unfold property_definition at h1
    rw [h1]
    rfl
  have hadd : add_property_definition definitions d2 = (definitions, false) := by
    unfold add_property_definition
    rw [hfind]
    rfl
  exact ⟨hadd, by rw [hadd]; exact h1⟩

/-- Witness for claim C8 at a concrete registry: a second registration of
the name `a` no-ops and the lookup still returns the first definition. -/
theorem add_property_definition_first_writer_wins_witness :
    add_property_definition [defExampleFirst] defExampleSecond =
      ([defExampleFirst], false) ∧
    property_definition
      (add_property_definition [defExampleFirst] defExampleSecond).1
      defExampleFirst.name = some defExampleFirst :=
  add_property_definition_first_writer_wins [defExampleFirst] defExampleFirst
    defExampleSecond rfl rfl

/-- Characterisation of the `validate_list` while-loop: starting below the
maximum, it either reaches the maximum inside the leading matches, or
consumes every value (all of them matching), or returns the mismatch error
of the first non-matching value. -/
theorem validateListGo_eq (datatype : DataType) (maximum : Nat) :
    ∀ (values : List Value) (count : Nat), count < maximum →
      validateListGo datatype maximum values count =
        (if maximum - count ≤ leadingMatches datatype values then
          .ok (maximum, values.drop (maximum - count))
        else if leadingMatches datatype values = values.length then
          .ok (count + leadingMatches datatype values, [])
        else .error "Data type mismatch") := by
  intro values
  induction values with
  | nil =>
    intro count hcount
    have h1 : ¬ (maximum - count ≤ leadingMatches datatype ([] : List Value)) := by
      simp only [leadingMatches]
      omega
    rw [if_neg h1, if_pos (by simp [leadingMatches] : leadingMatches datatype ([] : List Value) = ([] : List Value).length)]
    simp [validateListGo, leadingMatches]
  | cons value rest ih =>
    intro count hcount
    by_cases hmatch : datatypeMatches datatype value
    · have hlm : leadingMatches datatype (value :: rest) =
          leadingMatches datatype rest + 1 := by
        simp [leadingMatches, hmatch]
      by_cases hstop : count + 1 = maximum
      · have hc1 : maximum - count ≤ leadingMatches datatype (value :: rest) := by
          rw [hlm]
          omega
        rw [if_pos hc1]
        have hd : maximum - count = 1 := by omega
        rw [hd]
        simp [validateListGo, hmatch, hstop]
      · have hne : (count + 1 == maximum) = false := by
          simp [hstop]
        have hlhs : validateListGo datatype maximum (value :: rest) count =
            validateListGo datatype maximum rest (count + 1) := by
          simp [validateListGo, hmatch, hne]
        rw [hlhs, ih (count + 1) (by omega), hlm]
        by_cases hc1 : maximum - (count + 1) ≤ leadingMatches datatype rest
        · have hc1b : maximum - count ≤ leadingMatches datatype rest + 1 := by
            omega
          rw [if_pos hc1, if_pos hc1b]
          have hd : maximum - count = (maximum - (count + 1)) + 1 := by omega
          rw [hd]
          rfl
        · have hc1b : ¬ (maximum - count ≤ leadingMatches datatype rest + 1) := by
            omega
          rw [if_neg hc1, if_neg hc1b]
          by_cases hc2 : leadingMatches datatype rest = rest.length
          · have hc2b : leadingMatches datatype rest + 1 =
                (value :: rest).length := by
              simp [hc2]
            rw [if_pos hc2, if_pos hc2b]
            have : count + 1 + leadingMatches datatype rest =
                count + (leadingMatches datatype rest + 1) := by omega
            rw [this]
          · have hc2b : ¬ (leadingMatches datatype rest + 1 =
                (value :: rest).length) := by
              simp only [List.length_cons]
              omega
            rw [if_neg hc2, if_neg hc2b]
    · have hlm : leadingMatches datatype (value :: rest) = 0 := by
        simp [leadingMatches, hmatch]
      have hc1 : ¬ (maximum - count ≤ leadingMatches datatype (value :: rest)) := by
        rw [hlm]
        omega
      have hc2 : ¬ (leadingMatches datatype (value :: rest) =
          (value :: rest).length) := by
        rw [hlm]
        simp only [List.length_cons]
        omega
      rw [if_neg hc1, if_neg hc2]
      simp [validateListGo, hmatch]

/-- Computation rule: `exceptOk` on an error. -/
theorem exceptOk_error_eq {ε α : Type} (e : ε) :
    exceptOk (Except.error e : Except ε α) = false := rfl

/-- Computation rule: `exceptOk` on a success. -/
theorem exceptOk_ok_eq {ε α : Type} (a : α) :
    exceptOk (Except.ok a : Except ε α) = true := rfl

/-- The leading matches never exceed the list length. -/
theorem leadingMatches_le (datatype : DataType) :
    ∀ values : List Value, leadingMatches datatype values ≤ values.length := by
  intro values
  induction values with
  | nil => simp [leadingMatches]
  | cons value rest ih =>
    by_cases hmatch : datatypeMatches datatype value
    · simp [leadingMatches, hmatch]
      omega
    · simp [leadingMatches, hmatch]

/-- Claim C4, counterexample: with the space-separated values `1 "a"`, a
`SpaceSeparatedList(<number>)` followed by `<string>` is claimed to
validate (the list stopping at `"a"` and leaving it to the next
component), and a `Repeat{<number>,1,3}` alone is claimed to succeed after
its one matching value (1 ≥ min); both instead fail, because
`validate_list` returns the mismatch error instead of stopping. -/
theorem space_list_error_blocks_following_components :
    exceptOk (validate_expression
        [SyntaxAlternatives.component
          (SyntaxComponent.spaceSeparatedList DataType.number),
         SyntaxAlternatives.component (SyntaxComponent.dataType DataType.string)]
        [Value.ofNumber 1, Value.ofString "a"] ListType.spaceSeparated) = false ∧
    exceptOk (validate_component (SyntaxComponent.repeated DataType.number 1 3)
        [Value.ofNumber 1, Value.ofString "a"] ListType.spaceSeparated) = false :=
  ⟨rfl, rfl⟩

/-- Claim C4, amended: under a non-comma flavour a `SpaceSeparatedList(t)`
component validates exactly when *every* remaining value matches `t`, in
which case it consumes all of them and leaves nothing to later components;
a non-matching value anywhere fails the whole component rather than being
left over.  A `Repeat{t,min,max}` component (with `1 ≤ max`) validates
exactly when either the first `max` values all match, or all remaining
values match and at least `min` of them were consumed; a non-matching
value reached before `max` matches fails it even when at least `min`
values already matched. -/
theorem greedy_lists_fail_on_first_non_match (datatype : DataType)
    (values : List Value) (list_type : ListType) (minimum maximum : Nat)
    (hlt : list_type ≠ ListType.commaSeparated) (hmax : 1 ≤ maximum)
    (hlen : values.length < usizeMax) :
    (validate_component (.spaceSeparatedList datatype) values list_type =
        .ok [] ↔
      leadingMatches datatype values = values.length) ∧
    (exceptOk (validate_component (.repeated datatype minimum maximum) values
        list_type) = true ↔
      ((maximum ≤ leadingMatches datatype values ∧ minimum ≤ maximum) ∨
       (leadingMatches datatype values < maximum ∧
        leadingMatches datatype values = values.length ∧
        minimum ≤ leadingMatches datatype values))) := by
  have hbeq : (list_type == ListType.commaSeparated) = false := by
    cases list_type <;> simp_all
  have hlml := leadingMatches_le datatype values
  constructor
  · simp only [validate_component, hbeq, Bool.false_eq_true, if_false]
    unfold validate_list
    rw [validateListGo_eq datatype usizeMax values 0 (by omega)]
    have hnotA : ¬ (usizeMax - 0 ≤ leadingMatches datatype values) := by omega
    rw [if_neg hnotA]
    by_cases hB : leadingMatches datatype values = values.length
    · rw [if_pos hB]
      have h1 : ¬ (0 + leadingMatches datatype values < 0) := by omega
      have h2 : ¬ (0 + leadingMatches datatype values > usizeMax) := by omega
      simp only [if_neg h1, if_neg h2]
      constructor
      · intro _
        exact hB
      · intro _
        trivial
    · rw [if_neg hB]
      constructor
      · intro h
        exact absurd h (by simp)
      · intro h
        exact (hB h).elim
  · simp only [validate_component, hbeq, Bool.false_eq_true, if_false]
    unfold validate_list
    rw [validateListGo_eq datatype maximum values 0 (by omega)]
    by_cases hA : maximum - 0 ≤ leadingMatches datatype values
    · rw [if_pos hA]
      by_cases hmin : maximum < minimum
      · simp only [if_pos hmin, exceptOk_error_eq]
        constructor
        · intro h
          exact absurd h (by simp)
        · intro h
          omega
      · have h2 : ¬ (maximum > maximum) := by omega
        simp only [if_neg hmin, if_neg h2, exceptOk_ok_eq]
        constructor
        · intro _
          left
          omega
        · intro _
          trivial
    · rw [if_neg hA]
      by_cases hB : leadingMatches datatype values = values.length
      · rw [if_pos hB]
        by_cases hmin : 0 + leadingMatches datatype values < minimum
        · simp only [if_pos hmin, exceptOk_error_eq]
          constructor
          · intro h
            exact absurd h (by simp)
          · intro h
            omega
        · have h2 : ¬ (0 + leadingMatches datatype values > maximum) := by omega
          simp only [if_neg hmin, if_neg h2, exceptOk_ok_eq]
          constructor
          · intro _
            right
            refine ⟨by omega, hB, by omega⟩
          · intro _
            trivial
      · rw [if_neg hB]
        simp only [exceptOk_error_eq]
        constructor
        · intro h
          exact absurd h (by simp)
        · intro h
          rcases h with ⟨h1, _⟩ | ⟨_, h2, _⟩
          · omega
          · exact (hB h2).elim

/-- Witness for claim C4 at a concrete input: a space-separated list of one
matching number validates and consumes the whole list. -/
theorem greedy_lists_fail_on_first_non_match_witness :
    validate_component (SyntaxComponent.spaceSeparatedList DataType.number)
        [Value.ofNumber 1] ListType.spaceSeparated = .ok [] :=
  (greedy_lists_fail_on_first_non_match DataType.number [Value.ofNumber 1]
      ListType.spaceSeparated 1 2 (by decide) (by decide) (by decide)).1.mpr rfl

/-- A successful `tag` returns exactly its pattern. -/
theorem tagP_ok_val {pat input remain v : List Char}
    (h : tagP pat input = .ok remain v) : v = pat := by
  unfold tagP at h
  split at h
  · injection h with h1 h2
    exact h2.symm
  · exact PResult.noConfusion h

/-- A successful run of the `data_type_name` alt chain returns one of the
listed names. -/
theorem dataTypeNameGo_mem :
    ∀ (names : List String) (input remain v : List Char),
      dataTypeNameGo names input = .ok remain v →
      v ∈ names.map (fun s => s.toList) := by
  intro names
  induction names with
  | nil =>
    intro input remain v h
    exact PResult.noConfusion h
  | cons n rest ih =>
    intro input remain v h
    unfold dataTypeNameGo at h
    split at h
    · rename_i r2 v2 htag
      injection h with h1 h2
      rw [List.map_cons]
      subst h2
      rw [tagP_ok_val htag]
      exact List.mem_cons_self _ _
    · rw [List.map_cons]
      exact List.mem_cons_of_mem _ (ih input remain v h)

/-- Every name accepted by `data_type_name` is mapped to a data type by the
match in `data_type`, so its default `make_failure` arm is unreachable. -/
theorem dataTypeName_recognised {input remain v : List Char}
    (h : dataTypeName input = .ok remain v) :
    (dataTypeOfName v).isSome = true := by
  have hmem := dataTypeNameGo_mem dataTypeNames input remain v h
  simp only [dataTypeNames, List.map_cons, List.map_nil, List.mem_cons,
    List.not_mem_nil, or_false] at hmem
  rcases hmem with h1|h1|h1|h1|h1|h1|h1|h1|h1|h1|h1|h1|h1 <;>
    subst h1 <;> decide

/-- Claim C6, amended: an unrecognized data-type term produces a
*backtrackable* error, not a hard failure: the `make_failure` arm of
`data_type` is unreachable, so `data_type` never returns a failure.  A
descriptor that opens with such a term (like `<foo>`) does fail with
`InvalidPropertySyntax`, but when the term follows a valid component the
descriptor is accepted and the offending remainder silently ignored. -/
theorem unrecognized_datatype_is_backtrackable :
    (∀ input : List Char, PResult.isFailure (dataTypeP input) = false) ∧
    (∀ location : SourceLocation, parseSyntaxString "<foo>" location =
      .errored ⟨.invalidPropertySyntax,
        "Input matched none of the alternatives", location⟩) ∧
    parseSyntaxString "auto <foo>" ⟨"T", 0, 0⟩ =
      .parsed (.expression [.component (.keyword "auto")]) := by
  refine ⟨?_, ?_, rfl⟩
  · intro input
    unfold dataTypeP
    cases h1 : charP '<' input with
    | ok r1 c =>
      show PResult.isFailure
        (match dataTypeName r1 with
         | .ok r2 name =>
           match charP '>' r2 with
           | .ok r3 _ =>
             match dataTypeOfName name with
             | some dt => .ok r3 (SyntaxComponent.dataType dt)
             | none => .failS "Invalid data type"
           | _ => .errS "Input is not a data type"
         | _ => .errS "Input is not a data type") = false
      cases h2 : dataTypeName r1 with
      | ok r2 name =>
        show PResult.isFailure
          (match charP '>' r2 with
           | .ok r3 _ =>
             match dataTypeOfName name with
             | some dt => .ok r3 (SyntaxComponent.dataType dt)
             | none => .failS "Invalid data type"
           | _ => .errS "Input is not a data type") = false
        cases h3 : charP '>' r2 with
        | ok r3 c2 =>
          show PResult.isFailure
            (match dataTypeOfName name with
             | some dt => .ok r3 (SyntaxComponent.dataType dt)
             | none => .failS "Invalid data type") = false
          cases h4 : dataTypeOfName name with
          | some dt => rfl
          | none =>
            have hs := dataTypeName_recognised h2
            rw [h4] at hs
            simp at hs
        | errS e => rfl
        | failS e => rfl
        | panicked e => rfl
      | errS e => rfl
      | failS e => rfl
      | panicked e => rfl
    | errS e => rfl
    | failS e => rfl
    | panicked e => rfl
  · intro location
    rfl

/-- The `parse_block` body loop returns the first erroneous entry after any
run of successfully parsed declarations, discarding everything collected. -/
theorem parseBlockGo_error_aborts (prelude : List Selector)
    (loc : SourceLocation) (pre : List Property) (e : CssError)
    (post : List (Except CssError ParseResultT)) :
    ∀ (registry : List PropertyDefinition) (properties : List Property)
      (nested : List ParsedRule),
      parseBlockGo prelude loc
        (pre.map (fun p => .ok (.property p)) ++ .error e :: post) registry
        properties nested = (registry, .error e) := by
  induction pre with
  | nil =>
    intro registry properties nested
    rfl
  | cons p rest ih =>
    intro registry properties nested
    simp only [List.map_cons, List.cons_append, parseBlockGo]
    exact ih registry (properties ++ [p]) nested

/-- Claim C7, amended: an error in a single declaration aborts the whole
enclosing qualified rule: `parse_block` returns the error of the first
failing entry and the rule — valid declarations included — is dropped.
The error is then recorded in the stylesheet error list by the top-level
loop, which continues with the remaining items, so the enclosing *parse*
is not aborted. -/
theorem declaration_error_aborts_rule_but_not_sheet
    (prelude : List Selector) (loc : SourceLocation) (pre : List Property)
    (e : CssError) (post : List (Except CssError ParseResultT))
    (registry : List PropertyDefinition) (handler : ImportHandler)
    (rest : List (Except CssError ParseResultT)) (err2 : ParseError)
    (st : SheetState) (rules : List StyleRule) (errors : List ParseError) :
    parse_block prelude loc
        (pre.map (fun p => .ok (.property p)) ++ .error e :: post) registry =
      (registry, .error e) ∧
    topLoop handler (.error (.custom err2) :: rest) registry st rules errors =
      topLoop handler rest registry st rules (errors ++ [err2]) :=
  ⟨parseBlockGo_error_aborts prelude loc pre e post registry [] [], rfl⟩

/-- Unfolding of the recorded `RelativeParent` positions over a cons. -/
theorem relativeIndices_cons (part : SelectorPart) (rest : List SelectorPart) :
    relativeIndices (part :: rest) =
      (if part.kind == SelectorKind.relativeParent then [0] else []) ++
        (relativeIndices rest).map (fun i => i + 1) := by
  unfold relativeIndices
  rw [List.length_cons, List.range_succ_eq_map, List.filter_cons]
  have h0 : ((part :: rest).getD 0 (SelectorPart.newWithEmpty .unknown)).kind =
      part.kind := rfl
  rw [List.filter_map]
  have hcong : List.filter
      ((fun index =>
          ((part :: rest).getD index (SelectorPart.newWithEmpty .unknown)).kind ==
            SelectorKind.relativeParent) ∘ Nat.succ) (List.range rest.length) =
      List.filter
        (fun index =>
          (rest.getD index (SelectorPart.newWithEmpty .unknown)).kind ==
            SelectorKind.relativeParent) (List.range rest.length) := by
    apply List.filter_congr
    intro a _
    rfl
  rw [hcong]
  have hmap : (Nat.succ : Nat → Nat) = fun i => i + 1 := by
    funext i
    omega
  rw [hmap]
  by_cases hk : part.kind == SelectorKind.relativeParent
  · simp only [h0, hk, if_pos]
    simp
  · simp only [h0]
    rw [if_neg (by simp_all), if_neg (by simp_all)]
    simp

/-- A splice at the exact boundary between a prefix and the element it
replaces. -/
theorem spliceAt_exact (pfx rest s : List SelectorPart) (part : SelectorPart) :
    spliceAt (pfx ++ part :: rest) pfx.length s = pfx ++ s ++ rest := by
  unfold spliceAt
  have h1 : (pfx ++ part :: rest).take pfx.length = pfx := by
    rw [List.take_append_of_le_length (le_refl _)]
    simp
  have h2 : (pfx ++ part :: rest).drop (pfx.length + 1) = rest := by
    have : pfx ++ part :: rest = (pfx ++ [part]) ++ rest := by simp
    rw [this]
    have hlen : (pfx ++ [part]).length = pfx.length + 1 := by simp
    rw [← hlen, List.drop_left]
  rw [h1, h2]

/-- The offset-compensated splice loop of `Selector::combine` computes the
natural replacement of every `RelativeParent` part by the replacement
sequence: the invariant tracks the already-processed prefix (`pfx`), the
base index of the unprocessed suffix in the original list (`b`) and the
accumulated offset. -/
theorem spliceLoop_eq_replace (s : List SelectorPart) (hs : s ≠ []) :
    ∀ (parts pfx : List SelectorPart) (b offset : Nat),
      b + offset = pfx.length →
      (spliceLoop s ((relativeIndices parts).map (fun i => i + b))
        (pfx ++ parts, offset)).1 = pfx ++ replaceRelative s parts := by
  intro parts
  induction parts with
  | nil =>
    intro pfx b offset h
    simp [relativeIndices, spliceLoop, replaceRelative]
  | cons part rest ih =>
    intro pfx b offset h
    have hslen : 1 ≤ s.length := by
      cases s
      · exact (hs rfl).elim
      · simp
    rw [relativeIndices_cons]
    by_cases hk : part.kind == SelectorKind.relativeParent
    · rw [if_pos hk]
      rw [List.map_append, List.map_map]
      have hfun : ((fun i => i + b) ∘ fun i => (i : Nat) + 1) =
          fun i => i + (b + 1) := by
        funext i
        simp
        omega
      rw [hfun]
      simp only [List.map_cons, List.map_nil, List.singleton_append]
      simp only [spliceLoop]
      have hidx : 0 + b + offset = pfx.length := by omega
      rw [hidx]
      rw [spliceAt_exact]
      have hrw : pfx ++ s ++ rest = (pfx ++ s) ++ rest := by simp
      rw [hrw]
      rw [ih (pfx ++ s) (b + 1) (offset + s.length - 1) (by simp; omega)]
      simp [replaceRelative, hk]
    · rw [if_neg hk]
      rw [List.nil_append, List.map_map]
      have hfun : ((fun i => i + b) ∘ fun i => (i : Nat) + 1) =
          fun i => i + (b + 1) := by
        funext i
        simp
        omega
      rw [hfun]
      have hrw : pfx ++ part :: rest = (pfx ++ [part]) ++ rest := by simp
      rw [hrw]
      rw [ih (pfx ++ [part]) (b + 1) offset (by simp; omega)]
      simp [replaceRelative, hk]

/-- No recorded indices exactly when no part is a `RelativeParent`. -/
theorem relativeIndices_nil_iff (parts : List SelectorPart) :
    relativeIndices parts = [] ↔ hasRelativeParent parts = false := by
  induction parts with
  | nil => simp [relativeIndices, hasRelativeParent]
  | cons part rest ih =>
    rw [relativeIndices_cons]
    by_cases hk : part.kind == SelectorKind.relativeParent
    · simp [hk, hasRelativeParent]
    · rw [if_neg hk, List.nil_append]
      rw [List.map_eq_nil_iff]
      rw [ih]
      unfold hasRelativeParent
      rw [List.any_cons]
      have hkf : (part.kind == SelectorKind.relativeParent) = false := by
        simp_all
      rw [hkf]
      simp

/-- Replacing every `RelativeParent` by marker-free parts leaves a
marker-free list. -/
theorem replaceRelative_no_rp (s : List SelectorPart)
    (hs : hasRelativeParent s = false) :
    ∀ parts, hasRelativeParent (replaceRelative s parts) = false := by
  intro parts
  induction parts with
  | nil => simp [replaceRelative, hasRelativeParent]
  | cons part rest ih =>
    by_cases hk : part.kind == SelectorKind.relativeParent
    · unfold replaceRelative
      rw [if_pos hk]
      unfold hasRelativeParent at *
      rw [List.any_append, hs, ih]
      rfl
    · unfold replaceRelative
      rw [if_neg hk]
      unfold hasRelativeParent at *
      rw [List.any_cons]
      simp only [hk]
      rw [ih]
      rfl

/-- With a non-empty parent and a child containing at least one marker,
`combine` equals the natural marker replacement. -/
theorem combine_eq_replace (first second : Selector)
    (hne : second.parts ≠ []) (hrp : hasRelativeParent first.parts = true) :
    combine first second = ⟨replaceRelative second.parts first.parts⟩ := by
  unfold combine
  have h1 : second.parts.isEmpty = false := by
    cases h : second.parts
    · exact (hne h).elim
    · rfl
  rw [h1]
  have h2 : (relativeIndices first.parts).isEmpty = false := by
    cases h : relativeIndices first.parts
    · rw [(relativeIndices_nil_iff first.parts).mp h] at hrp
      exact Bool.noConfusion hrp
    · rfl
  simp only [Bool.false_eq_true, if_false, h2]
  have hmap : (relativeIndices first.parts).map (fun i => i + 0) =
      relativeIndices first.parts := by
    simp
  have := spliceLoop_eq_replace second.parts hne first.parts [] 0 0 rfl
  rw [hmap] at this
  rw [List.nil_append] at this
  rw [this]
  simp

/-- Claim C9, amended: when the spliced-in parent selector `second` has a
*non-empty* part list and contains no `RelativeParent` part, the combined
selector contains no `RelativeParent` part — whether or not the child
`first` contained markers, including a marker-free child (the parent is
appended).  The non-emptiness proviso is necessary: with an empty parent,
`combine` returns the child unchanged, markers included. -/
theorem combine_no_relative_parent (first second : Selector)
    (hne : second.parts ≠ [])
    (hno : hasRelativeParent second.parts = false) :
    hasRelativeParent (combine first second).parts = false := by
  by_cases hrp : hasRelativeParent first.parts = true
  · rw [combine_eq_replace first second hne hrp]
    exact replaceRelative_no_rp second.parts hno first.parts
  · have hfalse : hasRelativeParent first.parts = false := by
      cases h : hasRelativeParent first.parts
      · rfl
      · exact (hrp h).elim
    unfold combine
    have h1 : second.parts.isEmpty = false := by
      cases h : second.parts
      · exact (hne h).elim
      · rfl
    rw [h1]
    have h2 : relativeIndices first.parts = [] :=
      (relativeIndices_nil_iff first.parts).mpr hfalse
    simp only [Bool.false_eq_true, if_false, h2, List.isEmpty_nil, if_true]
    unfold hasRelativeParent at *
    rw [List.any_append, hfalse, hno]
    rfl

/-- Witness for claim C9 at concrete selectors: splicing the one-part parent
`type` into the child `&` yields a combined selector without markers. -/
theorem combine_no_relative_parent_witness :
    hasRelativeParent
      (combine ⟨[SelectorPart.newWithEmpty .relativeParent]⟩
        ⟨[SelectorPart.newWithEmpty .type]⟩).parts = false :=
  combine_no_relative_parent ⟨[SelectorPart.newWithEmpty .relativeParent]⟩
    ⟨[SelectorPart.newWithEmpty .type]⟩ (by simp) rfl

/-- Over clean entries (rules and property definitions only), the
`parse_string` loop finishes without touching the sheet state or
producing any new error. -/
theorem topLoop_clean (handler : ImportHandler) :
    ∀ (entries : List (Except CssError ParseResultT)),
      entries.all cleanEntry = true →
      ∀ (registry : List PropertyDefinition) (st : SheetState)
        (rules : List StyleRule) (errors : List ParseError),
        ∃ registry2 rules2,
          topLoop handler entries registry st rules errors =
            .finished registry2 st (rules ++ rules2) errors := by
  intro entries
  induction entries with
  | nil =>
    intro _ registry st rules errors
    exact ⟨registry, [], by simp [topLoop]⟩
  | cons entry rest ih =>
    intro hclean registry st rules errors
    rw [List.all_cons, Bool.and_eq_true] at hclean
    obtain ⟨hhead, htail⟩ := hclean
    rcases entry with e | r
    · exact Bool.noConfusion hhead
    · rcases r with p | rule | d | url
      · exact Bool.noConfusion hhead
      · obtain ⟨registry2, rules2, heq⟩ :=
          ih htail registry st (rules ++ from_parsed_rule rule) errors
        refine ⟨registry2, from_parsed_rule rule ++ rules2, ?_⟩
        show topLoop handler rest registry st (rules ++ from_parsed_rule rule)
            errors = _
        rw [heq, List.append_assoc]
      · obtain ⟨registry2, rules2, heq⟩ :=
          ih htail (add_property_definition registry d).1 st rules errors
        exact ⟨registry2, rules2, heq⟩
      · exact Bool.noConfusion hhead

/-- Claim C10: the success of `parse_string` is decided by the *cumulative*
error list.  With a non-empty error list left by an earlier call, a new
call whose entries parse cleanly (adding no error) still returns the
aggregated `StyleSheetParseError` built from the old errors; and any call
that returns `Ok` must have ended with an empty cumulative list. -/
theorem parse_string_success_requires_empty_cumulative_errors
    (handler : ImportHandler) (registry : List PropertyDefinition)
    (st : SheetState) (entries : List (Except CssError ParseResultT))
    (origin : String)
    (hprior : st.errors ≠ [])
    (hclean : entries.all cleanEntry = true) :
    (∃ registry2 rules2,
      parse_string_model handler registry st entries origin =
        some (registry2, ⟨st.rules ++ rules2, st.errors⟩,
          .error ⟨.styleSheetParseError, aggregateMessage st.errors,
            ⟨origin, 0, 0⟩⟩)) ∧
    (∀ (handler2 : ImportHandler) (registry2 : List PropertyDefinition)
       (st2 : SheetState) (entries2 : List (Except CssError ParseResultT))
       (origin2 : String) (registry3 : List PropertyDefinition)
       (st3 : SheetState) (u : Unit),
      parse_string_model handler2 registry2 st2 entries2 origin2 =
        some (registry3, st3, .ok u) → st3.errors = []) := by
  constructor
  · obtain ⟨registry2, rules2, heq⟩ :=
      topLoop_clean handler entries hclean registry st [] []
    refine ⟨registry2, rules2, ?_⟩
    unfold parse_string_model
    rw [heq]
    have hemp : (st.errors ++ ([] : List ParseError)).isEmpty = false := by
      rw [List.append_nil]
      cases h : st.errors
      · exact (hprior h).elim
      · rfl
    have hemp2 : st.errors.isEmpty = false := by
      cases h : st.errors
      · exact (hprior h).elim
      · rfl
    simp only [List.nil_append, hemp, hemp2, Bool.false_eq_true, if_false,
      List.append_nil]
  · intro handler2 registry2 st2 entries2 origin2 registry3 st3 u heq
    unfold parse_string_model at heq
    cases htop : topLoop handler2 entries2 registry2 st2 [] [] with
    | panickedD m =>
      rw [htop] at heq
      exact Option.noConfusion heq
    | importAborted rga sta ea =>
      rw [htop] at heq
      simp at heq
    | finished rgf stf rulesf errorsf =>
      rw [htop] at heq
      dsimp only [] at heq
      by_cases hempb : (stf.errors ++ errorsf).isEmpty = true
      · rw [if_pos hempb] at heq
        injection heq with h
        rw [Prod.mk.injEq] at h
        obtain ⟨hreg, h2⟩ := h
        rw [Prod.mk.injEq] at h2
        obtain ⟨hst, hok⟩ := h2
        rw [← hst]
        exact List.isEmpty_iff.mp hempb
      · rw [if_neg hempb] at heq
        injection heq with h
        rw [Prod.mk.injEq] at h
        obtain ⟨hreg, h2⟩ := h
        rw [Prod.mk.injEq] at h2
        exact Except.noConfusion h2.2

/-- Witness for claim C10: a sheet that already carries one error makes a
clean empty parse fail with the aggregated error. -/
theorem parse_string_success_requires_empty_cumulative_errors_witness :
    ∃ registry2 rules2,
      parse_string_model trivialImportHandler [] exampleSheetState [] "T" =
        some (registry2, ⟨exampleSheetState.rules ++ rules2,
            exampleSheetState.errors⟩,
          .error ⟨.styleSheetParseError,
            aggregateMessage exampleSheetState.errors, ⟨"T", 0, 0⟩⟩) :=
  (parse_string_success_requires_empty_cumulative_errors trivialImportHandler
    [] exampleSheetState [] "T" (by simp [exampleSheetState]) rfl).1
